import Mathlib

/-!
Verification of the knowledge-base sync and search core of the Teams
helpdesk bot.  The TypeScript sources are shallowly embedded: string
operations of the JavaScript runtime (`toLowerCase`, `trim`, `split`,
`includes`) are modelled as executable functions on `String`/`List Char`,
database tables as `List` values, the generative-model call as an
explicit parameter carrying its outcome, and SQL queries by their
filter/score/sort/limit semantics.
-/

/-! ### JavaScript string primitives -/

/-- Model of `String.prototype.toLowerCase` (basic-latin letters, which is
all the sources rely on): lower-case every character. -/
def jsToLowerCase (s : String) : String := ⟨s.data.map Char.toLower⟩

/-- Model of the character class `\s` used by the sources' regexes and of
the characters removed by `String.prototype.trim`. -/
def jsIsSpace (c : Char) : Bool := c.isWhitespace

/-- Characters of the JavaScript regex class `\w`: `[A-Za-z0-9_]`. -/
def jsIsWordChar (c : Char) : Bool := c.isAlphanum || c == '_'

/-- Model of `String.prototype.trim`: drop whitespace from both ends. -/
def jsTrim (s : String) : String :=
  ⟨((s.data.dropWhile jsIsSpace).reverse.dropWhile jsIsSpace).reverse⟩

/-- Decide whether `sub` occurs contiguously in `l` (`listContainsSeq sub l`). -/
def listContainsSeq [BEq α] (sub : List α) : List α → Bool
  | [] => sub.isEmpty
  | c :: cs => sub.isPrefixOf (c :: cs) || listContainsSeq sub cs

/-- Model of `String.prototype.includes`: substring containment. -/
def jsIncludes (s sub : String) : Bool := listContainsSeq sub.data s.data

/-- Split a character list at every character satisfying `p`, keeping the
(possibly empty) pieces between separators — the behaviour of
JavaScript's `split` with a single-character separator, and (up to empty
pieces, which every caller filters away by a length bound) of
`split(/\s+/)`. -/
def splitChars (p : Char → Bool) : List Char → List (List Char)
  | [] => [[]]
  | c :: cs =>
    if p c then [] :: splitChars p cs
    else
      match splitChars p cs with
      | [] => [[c]]
      | piece :: rest => (c :: piece) :: rest

/-- Split a string at every character satisfying `p`. -/
def jsSplit (p : Char → Bool) (s : String) : List String :=
  (splitChars p s.data).map (fun cs => (⟨cs⟩ : String))

/-! ### A stable sort usable as the denotation of SQL `ORDER BY` and of
JavaScript's (stable) `Array.prototype.sort` -/

/-- Insert `x` into a sorted list, before the first element that does not
strictly precede it (so equal elements keep their original order). -/
def insertSorted (le : α → α → Bool) (x : α) : List α → List α
  | [] => [x]
  | y :: ys => if le y x && !le x y then y :: insertSorted le x ys else x :: y :: ys

/-- Stable insertion sort with a boolean "may come before" relation. -/
def stableSortBy (le : α → α → Bool) : List α → List α
  | [] => []
  | x :: xs => insertSorted le x (stableSortBy le xs)

theorem mem_insertSorted {le : α → α → Bool} {x z : α} :
    ∀ {l : List α}, z ∈ insertSorted le x l ↔ z = x ∨ z ∈ l := by
  intro l
  induction l with
  | nil => simp [insertSorted]
  | cons y ys ih =>
    simp only [insertSorted]
    split
    · simp only [List.mem_cons, ih]
      tauto
    · simp only [List.mem_cons]

theorem mem_stableSortBy {le : α → α → Bool} {z : α} :
    ∀ {l : List α}, z ∈ stableSortBy le l ↔ z ∈ l := by
  intro l
  induction l with
  | nil => simp [stableSortBy]
  | cons x xs ih =>
    simp only [stableSortBy, mem_insertSorted, List.mem_cons, ih]

theorem pairwise_insertSorted {le : α → α → Bool}
    (total : ∀ a b, (le a b || le b a) = true)
    (trans : ∀ a b c, le a b = true → le b c = true → le a c = true)
    (x : α) :
    ∀ {l : List α}, l.Pairwise (fun a b => le a b = true) →
      (insertSorted le x l).Pairwise (fun a b => le a b = true) := by
  intro l
  induction l with
  | nil => simp [insertSorted]
  | cons y ys ih =>
    intro h
    rw [List.pairwise_cons] at h
    obtain ⟨hy, hys⟩ := h
    simp only [insertSorted]
    split
    · rename_i hcond
      rw [Bool.and_eq_true, Bool.not_eq_true'] at hcond
      rw [List.pairwise_cons]
      refine ⟨?_, ih hys⟩
      intro z hz
      rcases mem_insertSorted.1 hz with rfl | hz
      · exact hcond.1
      · exact hy z hz
    · rename_i hcond
      have htot := total x y
      rw [Bool.or_eq_true] at htot
      have hxy : le x y = true := by
        rcases htot with h1 | h1
        · exact h1
        · by_cases h2 : le x y = true
          · exact h2
          · exact absurd (by simp [h1, h2]) hcond
      rw [List.pairwise_cons]
      constructor
      · intro z hz
        rcases List.mem_cons.1 hz with rfl | hz
        · exact hxy
        · exact trans x y z hxy (hy z hz)
      · exact List.pairwise_cons.2 ⟨hy, hys⟩

theorem pairwise_stableSortBy {le : α → α → Bool}
    (total : ∀ a b, (le a b || le b a) = true)
    (trans : ∀ a b c, le a b = true → le b c = true → le a c = true) :
    ∀ (l : List α), (stableSortBy le l).Pairwise (fun a b => le a b = true) := by
  intro l
  induction l with
  | nil => simp [stableSortBy]
  | cons x xs ih => exact pairwise_insertSorted total trans x ih

/-! ### Data model

`AteraArticle`, `SyncStats` mirror the interfaces of
`dailyKnowledgeBaseSync.ts`; `StoredArticle` is a row of the
`knowledge_base_articles` table (the columns the sync and the chat search
touch); `SearchKeywords` mirrors `intelligentSearch.ts`.  Timestamps are
abstracted to `Option Int`. -/

structure AteraArticle where
  id : String
  title : String
  content : String
  category : String
  tags : List String
  lastUpdated : Option Int
  kbproduct : String
  kbIsPrivate : Bool
  kbStatus : Int
  url : String
deriving DecidableEq, Repr

structure StoredArticle where
  articleId : String
  title : String
  content : String
  url : String
  tags : List String
  lastUpdated : Option Int
  searchKeywords : List String
  isActive : Bool
  kbIsPrivate : Bool
  kbStatus : Int
deriving DecidableEq, Repr

structure SyncStats where
  articlesChecked : Nat
  articlesUpdated : Nat
  articlesAdded : Nat
  keywordsGenerated : Nat
  totalArticles : Nat
  errors : List String
deriving DecidableEq, Repr

structure SearchKeywords where
  primary : List String
  secondary : List String
  context : String
deriving DecidableEq, Repr

/-- The `KBKeywords` field of an upstream record, which may be a string,
an array, absent/falsy, or of any other shape (`processTags` takes `any`).
An empty upstream string is falsy in JavaScript, so it is represented by
`str ""` and handled by the falsy guard. -/
inductive TagsField where
  | null : TagsField
  | str : String → TagsField
  | arr : List String → TagsField
  | other : TagsField
deriving DecidableEq, Repr

/-- An upstream page item after JavaScript's own field coercions:
`kbId` is `item.KBID?.toString() || ''` (missing → `""`), `kbProduct`
and `kbContext` default to `""` when missing/falsy, `kbStatus` is
`parseInt(item.KBStatus) || 0`. -/
structure RawItem where
  kbId : String
  kbProduct : String
  kbContext : String
  kbCategory : String
  kbKeywords : TagsField
  kbLastUpdate : Option Int
  kbIsPrivate : Bool
  kbStatus : Int
deriving DecidableEq, Repr

/-! ### Source fetcher (`dailyKnowledgeBaseSync.ts`) -/

/-- Model of `DailyKnowledgeBaseSync.processTags`: comma-split a string field or
coerce an array field, trimming entries and dropping empty ones. -/
def processTags : TagsField → List String
  | .null => []
  | .str s =>
    if s = "" then []  -- `if (!tags) return []`: the empty string is falsy
    else ((splitChars (· == ',') s.data).map (fun cs => jsTrim ⟨cs⟩)).filter
      (fun tag => tag.length > 0)
  | .arr l => (l.map jsTrim).filter (fun tag => tag.length > 0)
  | .other => []

/-- Model of `DailyKnowledgeBaseSync.parseAteraResponse`, per item. -/
def parseRawItem (item : RawItem) : AteraArticle :=
  { id := item.kbId
    title := if item.kbProduct = "" then "Knowledge Base Article" else item.kbProduct
    content := item.kbContext
    category := item.kbCategory
    tags := processTags item.kbKeywords
    lastUpdated := item.kbLastUpdate
    kbproduct := item.kbProduct
    kbIsPrivate := item.kbIsPrivate
    kbStatus := item.kbStatus
    url := "https://helpdesk.anthemproperties.com/knowledgebase/article/" ++ item.kbId }

/-- Model of `DailyKnowledgeBaseSync.parseAteraResponse`: map then drop records
with a falsy id, a placeholder title, or falsy content. -/
def parseAteraResponse (items : List RawItem) : List AteraArticle :=
  (items.map parseRawItem).filter
    (fun a => a.id ≠ "" && a.title ≠ "Knowledge Base Article" && a.content ≠ "")

/-- One upstream page request: `Except.error` models a transport error or
a non-2xx response (both throw inside the page loop), `Except.ok items`
a parsed JSON body's `items` array. -/
abbrev PageOracle := Nat → Except Unit (List RawItem)

/-- The page loop of `DailyKnowledgeBaseSync.fetchAllAteraArticles`,
started at `currentPage`, with `acc` the articles gathered so far and
`reqs` the number of page requests already made.  Returns the
accumulated articles and the total number of page requests.  A failed
request breaks the loop (the error is not re-thrown); an empty `items`
breaks; after a successful page the loop stops once the next page number
exceeds 20. -/
def fetchPagesFrom (pages : PageOracle) (currentPage : Nat)
    (acc : List AteraArticle) (reqs : Nat) : List AteraArticle × Nat :=
  match pages currentPage with
  | .error _ => (acc, reqs + 1)
  | .ok items =>
    if items.isEmpty then (acc, reqs + 1)
    else
      let acc' := acc ++ parseAteraResponse items
      if h : currentPage + 1 > 20 then (acc', reqs + 1)
      else fetchPagesFrom pages (currentPage + 1) acc' (reqs + 1)
termination_by 21 - currentPage
decreasing_by simp_wf; omega

/-- Model of `DailyKnowledgeBaseSync.fetchAllAteraArticles`. -/
def fetchAllAteraArticles (pages : PageOracle) : List AteraArticle × Nat :=
  fetchPagesFrom pages 1 [] 0

/-- Model of `DailyKnowledgeBaseSync.filterQualityArticles`: keep public, published
(status 2) articles with non-empty trimmed content. -/
def filterQualityArticles (articles : List AteraArticle) : List AteraArticle :=
  articles.filter (fun article =>
    (!article.kbIsPrivate) && (article.kbStatus == 2)
      && (article.content ≠ "" && (jsTrim article.content).length > 0))

/-! ### Synchronizer (`dailyKnowledgeBaseSync.ts`)

The Store is a `List StoredArticle` in table order: `db.update ... where
articleId = id` rewrites every matching row in place, `db.insert`
appends, `db.delete` filters.  The generative-model call of the keyword
backfill is abstracted as a function `genKw` from title and content to
the keyword list it would store (`generateSearchKeywords` below shows
that call itself never throws). -/

/-- The field updates applied by `DailyKnowledgeBaseSync.updateExistingArticle`
(note: no `searchKeywords` among them). -/
def applyUpdate (a : AteraArticle) (s : StoredArticle) : StoredArticle :=
  { s with
    title := a.title
    content := a.content
    tags := a.tags
    lastUpdated := a.lastUpdated
    url := a.url
    kbIsPrivate := a.kbIsPrivate
    kbStatus := a.kbStatus }

/-- The `needsUpdate` diff of `updateExistingArticle`: title, content or
tags differ (tags via `JSON.stringify` equality = list equality). -/
def needsUpdate (s : StoredArticle) (a : AteraArticle) : Bool :=
  s.title ≠ a.title || s.content ≠ a.content || s.tags ≠ a.tags

/-- Model of `DailyKnowledgeBaseSync.updateExistingArticle`: look up the first row
with the article's id; when the diff is non-empty rewrite every row with
that id, preserving `searchKeywords`; returns the new store and whether
an update was performed. -/
def updateExistingArticle (store : List StoredArticle) (a : AteraArticle) :
    List StoredArticle × Bool :=
  match store.find? (fun s => s.articleId == a.id) with
  | none => (store, false)
  | some existing =>
    if needsUpdate existing a then
      (store.map (fun s => if s.articleId == a.id then applyUpdate a s else s), true)
    else (store, false)

/-- The row inserted by `DailyKnowledgeBaseSync.addNewArticle`:
`searchKeywords` starts empty, `isActive` true. -/
def newStoredArticle (a : AteraArticle) : StoredArticle :=
  { articleId := a.id
    title := a.title
    content := a.content
    url := a.url
    tags := a.tags
    lastUpdated := a.lastUpdated
    searchKeywords := []
    isActive := true
    kbIsPrivate := a.kbIsPrivate
    kbStatus := a.kbStatus }

def addNewArticle (store : List StoredArticle) (a : AteraArticle) : List StoredArticle :=
  store ++ [newStoredArticle a]

/-- Step 4 of `performDailySync`: process each quality article against the
snapshot `existingIds` of ids taken before the loop; returns the new
store, the number of articles updated and the number added. -/
def processArticles (existingIds : List String) (store : List StoredArticle) :
    List AteraArticle → List StoredArticle × Nat × Nat
  | [] => (store, 0, 0)
  | a :: rest =>
    if existingIds.contains a.id then
      let r := updateExistingArticle store a
      let rec' := processArticles existingIds r.1 rest
      (rec'.1, (if r.2 then rec'.2.1 + 1 else rec'.2.1), rec'.2.2)
    else
      let rec' := processArticles existingIds (addNewArticle store a) rest
      (rec'.1, rec'.2.1, rec'.2.2 + 1)

/-- Model of `DailyKnowledgeBaseSync.generateMissingKeywords`: give every row whose
keyword list is null/empty the keywords produced for its title and
content, counting the rows so treated. -/
def generateMissingKeywords (genKw : String → String → List String)
    (store : List StoredArticle) : List StoredArticle × Nat :=
  (store.map (fun s =>
      if s.searchKeywords.isEmpty then { s with searchKeywords := genKw s.title s.content } else s),
    (store.filter (fun s => s.searchKeywords.isEmpty)).length)

/-- Model of `DailyKnowledgeBaseSync.cleanupRemovedArticles`: hard-delete every row
whose id is not among the current upstream ids. -/
def cleanupRemovedArticles (currentArticleIds : List String)
    (store : List StoredArticle) : List StoredArticle :=
  store.filter (fun s => currentArticleIds.contains s.articleId)

/-- Model of `DailyKnowledgeBaseSync.performDailySync` on the path where the store
operations succeed (per-article catch blocks are never entered, so
`errors` stays empty): quality-filter the fetched articles, add/update
each, backfill missing keywords, clean up removed rows, and report
stats. -/
def performDailySync (genKw : String → String → List String)
    (fetched : List AteraArticle) (store : List StoredArticle) :
    List StoredArticle × SyncStats :=
  let quality := filterQualityArticles fetched
  let existingIds := store.map (fun s => s.articleId)
  let r1 := processArticles existingIds store quality
  let r2 := generateMissingKeywords genKw r1.1
  let store3 := cleanupRemovedArticles (quality.map (fun a => a.id)) r2.1
  (store3,
    { articlesChecked := quality.length
      articlesUpdated := r1.2.1
      articlesAdded := r1.2.2
      keywordsGenerated := r2.2
      totalArticles := store3.length
      errors := [] })

/-! ### Keyword extractor (`dailyKnowledgeBaseSync.ts`) -/

/-- The generic-term blocklist of `DailyKnowledgeBaseSync.isGenericKeyword`. -/
def genericTerms : List String :=
  ["it support", "troubleshooting", "help", "guide", "instructions",
   "setup", "configuration", "support", "documentation", "manual",
   "tutorial", "how to", "steps", "process", "procedure", "guide",
   "overview", "introduction", "basics", "getting started"]

/-- Model of `DailyKnowledgeBaseSync.isGenericKeyword`: the keyword contains a
generic term or is contained in one. -/
def isGenericKeyword (keyword : String) : Bool :=
  genericTerms.any (fun term => jsIncludes keyword term || jsIncludes term keyword)

/-- Model of `DailyKnowledgeBaseSync.extractBasicKeywords`: lower-case the title,
replace every non-word non-space character by a space, split on
whitespace, keep words longer than 2 characters, take the first 4. -/
def extractBasicKeywords (title : String) : List String :=
  ((jsSplit jsIsSpace
      ⟨(jsToLowerCase title).data.map (fun c => if jsIsWordChar c || jsIsSpace c then c else ' ')⟩).filter
    (fun word => word.length > 2)).take 4

/-- The post-filter of `generateSearchKeywords` on a model-returned
keywords array: trim + lower-case, keep lengths in (2, 50), drop generic
keywords, cap at 7. -/
def cleanedModelKeywords (keywords : List String) : List String :=
  (((keywords.map (fun k => jsToLowerCase (jsTrim k))).filter
      (fun k => k.length > 2 && k.length < 50)).filter
    (fun k => !isGenericKeyword k)).take 7

/-- Model of `DailyKnowledgeBaseSync.generateSearchKeywords`.  `modelKeywords` is
the outcome of the model call: `none` models any failure on that path
(call throws, timeout, malformed JSON — all caught), `some ks` the
parsed keywords array (`some []` also covers a non-array field).  On
failure, or when the post-filter empties the result, fall back to the
title's basic keywords. -/
def generateSearchKeywords (modelKeywords : Option (List String))
    (title : String) (content : String) : List String :=
  match modelKeywords with
  | none => extractBasicKeywords title
  | some ks =>
    let cleaned := cleanedModelKeywords ks
    if cleaned.isEmpty then extractBasicKeywords title else cleaned

/-! ### Intelligent search engine (`intelligentSearch.ts`)

The engine's SQL reads columns `article_id, title, url, kbproduct,
content, last_updated, is_active`; `SearchRow` is that view of the
table.  `searchWithIntelligence` is modelled with the extracted
`SearchKeywords` as a parameter (the model call, like the article-side
one, falls back locally and never throws) and a flag telling whether the
store query of the try block fails — the `catch` path. -/

structure SearchRow where
  articleId : String
  title : String
  url : String
  kbproduct : String
  content : String
  lastUpdated : Option Int
  isActive : Bool
deriving DecidableEq, Repr

/-- Semantics of `LOWER(col) LIKE '%kw.toLowerCase()%'`. -/
def likeLower (field kw : String) : Bool :=
  jsIncludes (jsToLowerCase field) (jsToLowerCase kw)

/-- A SQL `CASE`: the value of the first branch whose condition holds,
`ELSE 0`. -/
def caseScore : List (Bool × Int) → Int
  | [] => 0
  | b :: rest => if b.1 then b.2 else caseScore rest

/-- The relevance score of the main search query: primary keywords score
`10 - i` on `kbproduct` and `7 - i` on content, secondary keywords
`3 - i` and `2 - i`, first matching branch wins. -/
def relevanceScore (ks : SearchKeywords) (r : SearchRow) : Int :=
  caseScore
    ((ks.primary.enum.map (fun p => (likeLower r.kbproduct p.2, (10 : Int) - p.1)))
      ++ (ks.primary.enum.map (fun p => (likeLower r.content p.2, (7 : Int) - p.1)))
      ++ (ks.secondary.enum.map (fun p => (likeLower r.kbproduct p.2, (3 : Int) - p.1)))
      ++ (ks.secondary.enum.map (fun p => (likeLower r.content p.2, (2 : Int) - p.1))))

/-- The `WHERE` clause of the main query: some keyword (primary or
secondary) matches `kbproduct` or `content`, and the row is active. -/
def rowMatchesKeywords (ks : SearchKeywords) (r : SearchRow) : Bool :=
  (ks.primary ++ ks.secondary).any (fun kw => likeLower r.kbproduct kw || likeLower r.content kw)

/-- The `NULLS FIRST` comparison backing `ORDER BY last_updated DESC`. -/
def luGe : Option Int → Option Int → Bool
  | none, _ => true
  | some _, none => false
  | some x, some y => y ≤ x

/-- Relation of `ORDER BY relevance_score DESC, last_updated DESC`: a "may come
before" relation. -/
def intelOrder (ks : SearchKeywords) (x y : SearchRow) : Bool :=
  relevanceScore ks y < relevanceScore ks x
    || (relevanceScore ks x == relevanceScore ks y && luGe x.lastUpdated y.lastUpdated)

/-- The main (try-block) query of `searchWithIntelligence`: filter by the
keyword conditions and `is_active`, order by score then freshness,
`LIMIT 5`. -/
def intelligentQueryRows (ks : SearchKeywords) (store : List SearchRow) : List SearchRow :=
  ((stableSortBy (intelOrder ks)
      (store.filter (fun r => rowMatchesKeywords ks r && r.isActive))).take 5)

/-- The single keyword of the catch-block fallback:
`keywords.primary[0] || userQuery.split(' ')[0]` (an empty first primary
keyword is falsy). -/
def fallbackKeyword (ks : SearchKeywords) (userQuery : String) : String :=
  match ks.primary with
  | [] => ((jsSplit (· == ' ') userQuery).headD "")
  | k :: _ => if k = "" then ((jsSplit (· == ' ') userQuery).headD "") else k

/-- Rank of `ORDER BY CASE kbproduct-match THEN 1, content-match THEN 2, ELSE 3`. -/
def fallbackRank (kw : String) (r : SearchRow) : Int :=
  caseScore [(likeLower r.kbproduct kw, 1), (likeLower r.content kw, 2), (true, 3)]

/-- The catch-block fallback query: simple single-keyword search,
`LIMIT 5`. -/
def fallbackQueryRows (kw : String) (store : List SearchRow) : List SearchRow :=
  (stableSortBy (fun x y => fallbackRank kw x ≤ fallbackRank kw y)
      (store.filter (fun r => (likeLower r.kbproduct kw || likeLower r.content kw) && r.isActive))).take 5

/-- Model of `IntelligentSearchEngine.searchWithIntelligence`: run the main query;
when the store query fails (`mainQueryFails`), degrade to the
single-keyword fallback query.  The boolean of the result records
whether the fallback retry ran. -/
def searchWithIntelligence (ks : SearchKeywords) (store : List SearchRow)
    (mainQueryFails : Bool) (userQuery : String) : List SearchRow × Bool :=
  if mainQueryFails then
    (fallbackQueryRows (fallbackKeyword ks userQuery) store, true)
  else
    (intelligentQueryRows ks store, false)

/-! ### Strict chat-turn search (`teamsBot.ts`, `handleMessage`) -/

/-- The stop-word list of the chat-turn search. -/
def chatStopWords : List String :=
  ["how", "to", "can", "my", "the", "and", "for", "with", "are", "is", "do",
   "does", "will", "what", "when", "where", "why", "help", "me", "i", "you", "a", "an"]

/-- Term extraction of the chat turn: lower-case the message, split on
single spaces, keep terms longer than 2 characters that are not stop
words. -/
def chatSearchTerms (userMessage : String) : List String :=
  (jsSplit (· == ' ') (jsToLowerCase userMessage)).filter
    (fun term => term.length > 2 && !chatStopWords.contains term)

/-- Semantics of `array_to_string(search_keywords, ' ')` and of `search_keywords.join(' ')`. -/
def joinSpace (l : List String) : String := String.intercalate " " l

/-- The `WHERE` clause of the chat-turn query: some term matches title,
content, or the joined keyword list (`ILIKE`, case-insensitive). -/
def chatRowMatches (terms : List String) (r : StoredArticle) : Bool :=
  terms.any (fun t =>
    likeLower r.title t || likeLower r.content t || likeLower (joinSpace r.searchKeywords) t)

/-- The in-process relevance score of the chat turn: +50 when every term
occurs in the title, +40 when every term occurs in the joined keywords,
then +10 per term in the title and +5 per term in the keywords. -/
def chatScore (terms : List String) (r : StoredArticle) : Int :=
  let title := jsToLowerCase r.title
  let keywords := jsToLowerCase (joinSpace r.searchKeywords)
  (if terms.all (fun term => jsIncludes title term) then 50 else 0)
    + (if terms.all (fun term => jsIncludes keywords term) then 40 else 0)
    + (terms.map (fun term =>
        (if jsIncludes title term then (10 : Int) else 0)
          + (if jsIncludes keywords term then (5 : Int) else 0))).sum

/-- The comparator `(a, b) => b.relevance_score - a.relevance_score` of
the chat turn's in-process sort: higher `chatScore` first. -/
def chatOrder (terms : List String) (a b : StoredArticle) : Bool :=
  chatScore terms b ≤ chatScore terms a

/-- The re-scoring block guarded by `result.rows.length > 0`: when rows
came back, sort them by score descending (stable), drop rows scoring
below 10, and keep the top 3. -/
def chatRescore (terms : List String) (rows : List StoredArticle) : List StoredArticle :=
  if rows.isEmpty then rows
  else
    ((stableSortBy (chatOrder terms) rows).filter
      (fun r => (10 : Int) ≤ chatScore terms r)).take 3

/-- The chat-turn search given the extracted terms: with no terms, no
query runs; otherwise fetch the matching active rows ordered by
`last_updated DESC` and re-score them in process. -/
def chatSearchWithTerms (terms : List String) (store : List StoredArticle) :
    List StoredArticle :=
  if terms.isEmpty then []
  else
    chatRescore terms (stableSortBy (fun x y => luGe x.lastUpdated y.lastUpdated)
      (store.filter (fun r => chatRowMatches terms r && r.isActive)))

/-- The knowledge-base lookup of `ITSupportBot.handleMessage` for one
message. -/
def chatSearch (userMessage : String) (store : List StoredArticle) : List StoredArticle :=
  chatSearchWithTerms (chatSearchTerms userMessage) store

/-! ### Lower-casing and splitting lemmas -/

theorem char_toLower_idem (c : Char) : c.toLower.toLower = c.toLower := by
  simp only [Char.toLower]
  by_cases h : c.toNat ≥ 65 ∧ c.toNat ≤ 90
  · rw [if_pos h]
    obtain ⟨h1, h2⟩ := h
    generalize c.toNat = n at h1 h2
    interval_cases n <;> decide
  · rw [if_neg h, if_neg h]

theorem jsToLowerCase_idem (s : String) : jsToLowerCase (jsToLowerCase s) = jsToLowerCase s := by
  show (⟨(s.data.map Char.toLower).map Char.toLower⟩ : String) = ⟨s.data.map Char.toLower⟩
  rw [List.map_map]
  exact congrArg String.mk (List.map_congr_left (fun c _ => char_toLower_idem c))

theorem mem_splitChars_subset {p : Char → Bool} :
    ∀ {l piece : List Char}, piece ∈ splitChars p l → ∀ c ∈ piece, c ∈ l := by
  intro l
  induction l with
  | nil =>
    intro piece h
    simp only [splitChars, List.mem_singleton] at h
    subst h
    simp
  | cons x xs ih =>
    intro piece h
    simp only [splitChars] at h
    split at h
    · rcases List.mem_cons.1 h with rfl | h
      · simp
      · exact fun c hc => List.mem_cons_of_mem x (ih h c hc)
    · cases hs : splitChars p xs with
      | nil =>
        rw [hs] at h
        simp only [List.mem_singleton] at h
        subst h
        intro c hc
        rcases List.mem_cons.1 hc with rfl | hc
        · exact List.mem_cons_self _ _
        · simp at hc
      | cons q rest =>
        rw [hs] at h
        rcases List.mem_cons.1 h with rfl | h
        · intro c hc
          rcases List.mem_cons.1 hc with rfl | hc
          · exact List.mem_cons_self _ _
          · exact List.mem_cons_of_mem x
              (ih (hs ▸ List.mem_cons_self q rest) c hc)
        · exact fun c hc =>
            List.mem_cons_of_mem x (ih (hs ▸ List.mem_cons_of_mem q h) c hc)

/-- Every keyword the title fallback produces is already lower-case. -/
theorem extractBasicKeywords_lower (title : String) :
    ∀ k ∈ extractBasicKeywords title, jsToLowerCase k = k := by
  intro k hk
  have hk1 := List.mem_of_mem_take hk
  have hk2 := (List.mem_filter.1 hk1).1
  obtain ⟨cs, hcs, rfl⟩ := List.mem_map.1 hk2
  have hsub := mem_splitChars_subset hcs
  show (⟨cs.map Char.toLower⟩ : String) = ⟨cs⟩
  refine congrArg String.mk ?_
  conv_rhs => rw [← List.map_id cs]
  refine List.map_congr_left (fun c hc => ?_)
  have hc' := hsub c hc
  obtain ⟨c1, _, rfl⟩ := List.mem_map.1 hc'
  obtain ⟨c0, _, rfl⟩ := List.mem_map.1 (by exact_mod_cast ‹c1 ∈ (jsToLowerCase title).data›)
  by_cases hw : (jsIsWordChar c0.toLower || jsIsSpace c0.toLower) = true
  · simp only [hw, if_pos, id]
    exact char_toLower_idem c0
  · simp only [hw]
    simp only [Bool.not_eq_true] at hw
    rw [if_neg (by simp [hw]), id]
    decide

/-- Every keyword surviving the model-result post-filter is lower-case. -/
theorem cleanedModelKeywords_lower (ks : List String) :
    ∀ k ∈ cleanedModelKeywords ks, jsToLowerCase k = k := by
  intro k hk
  have hk1 := List.mem_of_mem_take hk
  have hk2 := (List.mem_filter.1 (List.mem_filter.1 hk1).1).1
  obtain ⟨k0, _, rfl⟩ := List.mem_map.1 hk2
  exact jsToLowerCase_idem (jsTrim k0)

/-! ### C6 — keyword-extractor contract -/

/-- C6 counterexample: the claim promises an ordered list of 1 to 7
keywords for every title, but for the title `"ab"` (no word longer than
2 characters) a failed model call makes `generateSearchKeywords` return
the empty list. -/
theorem c6_counterexample :
    ¬ (1 ≤ (generateSearchKeywords none "ab" "some content").length) := by decide

/-- C6 (amended): for every title, content and model outcome,
`generateSearchKeywords` returns (without raising) an ordered list of at
most 7 lower-case keywords; on model failure, or when the post-filter
empties the model's result, the list is the first non-trivial words of
the title — possibly empty when the title has no word of more than two
characters; in particular for the title "Password Reset Guide" the
fallback is `["password", "reset", "guide"]`. -/
theorem c6_keyword_contract (modelKeywords : Option (List String))
    (title content : String) :
    (generateSearchKeywords modelKeywords title content).length ≤ 7
    ∧ (∀ k ∈ generateSearchKeywords modelKeywords title content, jsToLowerCase k = k)
    ∧ generateSearchKeywords none title content = extractBasicKeywords title
    ∧ (∀ ks, cleanedModelKeywords ks = [] →
        generateSearchKeywords (some ks) title content = extractBasicKeywords title)
    ∧ generateSearchKeywords none "Password Reset Guide" content
        = ["password", "reset", "guide"] := by
  have hbasic_len : (extractBasicKeywords title).length ≤ 7 := by
    calc (extractBasicKeywords title).length ≤ 4 := by
          simpa [extractBasicKeywords] using List.length_take_le 4 _
      _ ≤ 7 := by omega
  refine ⟨?_, ?_, rfl, ?_, by simp only [generateSearchKeywords]; decide⟩
  · cases modelKeywords with
    | none => exact hbasic_len
    | some ks =>
      simp only [generateSearchKeywords]
      split
      · exact hbasic_len
      · simpa [cleanedModelKeywords] using List.length_take_le 7 _
  · cases modelKeywords with
    | none => exact extractBasicKeywords_lower title
    | some ks =>
      simp only [generateSearchKeywords]
      split
      · exact extractBasicKeywords_lower title
      · exact cleanedModelKeywords_lower ks
  · intro ks hks
    simp [generateSearchKeywords, hks]

/-- C6 witness: the contract applied to a concrete model result and the
concrete fallback example. -/
theorem c6_witness :
    (generateSearchKeywords (some ["  VPN Setup ", "Excel"]) "T" "c").length ≤ 7
    ∧ jsToLowerCase "excel" = "excel"
    ∧ generateSearchKeywords none "Password Reset Guide" "c"
        = ["password", "reset", "guide"] :=
  ⟨(c6_keyword_contract (some ["  VPN Setup ", "Excel"]) "T" "c").1,
    (c6_keyword_contract (some ["  VPN Setup ", "Excel"]) "T" "c").2.1 "excel" (by decide),
    (c6_keyword_contract none "Password Reset Guide" "c").2.2.2.2⟩

/-! ### C10 — tags parsing -/

/-- C10 counterexample: `processTags` does not deduplicate — the
comma-separated field `"vpn,vpn"` parses to `["vpn", "vpn"]`, which
contains a duplicate entry. -/
theorem c10_counterexample : ¬ (processTags (TagsField.str "vpn,vpn")).Nodup := by decide

/-- C10 (amended): `processTags` parses the comma-separated-or-array tags
field into a list of trimmed non-empty strings; duplicates are
preserved (no deduplication is performed). -/
theorem c10_tags_trimmed_nonempty (x : TagsField) :
    ∀ t ∈ processTags x, t ≠ "" ∧ ∃ r, t = jsTrim r := by
  intro t ht
  cases x with
  | null => simp [processTags] at ht
  | other => simp [processTags] at ht
  | str s =>
    simp only [processTags] at ht
    split at ht
    · simp at ht
    · have h1 := (List.mem_filter.1 ht).2
      have h2 := (List.mem_filter.1 ht).1
      obtain ⟨cs, _, rfl⟩ := List.mem_map.1 h2
      refine ⟨?_, ⟨cs⟩, rfl⟩
      intro he
      rw [he] at h1
      simp at h1
  | arr l =>
    simp only [processTags] at ht
    have h1 := (List.mem_filter.1 ht).2
    obtain ⟨r, _, rfl⟩ := List.mem_map.1 (List.mem_filter.1 ht).1
    refine ⟨?_, r, rfl⟩
    intro he
    rw [he] at h1
    simp at h1

/-- C10 witness: the amended parse contract at a concrete field. -/
theorem c10_witness : "vpn" ≠ "" ∧ ∃ r, "vpn" = jsTrim r :=
  c10_tags_trimmed_nonempty (TagsField.str "vpn,vpn") "vpn" (by decide)

/-! ### C1 — when the single-keyword retry runs -/

/-- C1 counterexample: a successful store query that finds zero candidate
articles, with non-empty extracted keyword lists, is returned as the
empty result directly — no single-keyword retry runs (the retry flag is
`false`). -/
theorem c1_counterexample :
    (searchWithIntelligence ⟨["vpn"], ["network"], "ctx"⟩
        [{ articleId := "9", title := "Printer offline", url := "u",
           kbproduct := "Printer offline", content := "paper jam",
           lastUpdated := none, isActive := true }] false "vpn drops").1 = []
    ∧ (["vpn"] ++ ["network"] : List String) ≠ []
    ∧ (searchWithIntelligence ⟨["vpn"], ["network"], "ctx"⟩
        [{ articleId := "9", title := "Printer offline", url := "u",
           kbproduct := "Printer offline", content := "paper jam",
           lastUpdated := none, isActive := true }] false "vpn drops").2 = false := by
  refine ⟨by decide, by decide, by decide⟩

/-- C1 (amended): the engine retries the store query with the single most
important primary keyword only when the store query fails (throws); a
successful query — even one returning zero candidates — is returned as
is, without a retry.  On the failure path the retry is the
single-keyword fallback query, whose result also holds at most 5 rows. -/
theorem c1_retry_only_on_store_failure (ks : SearchKeywords)
    (store : List SearchRow) (q : String) :
    (searchWithIntelligence ks store false q).2 = false
    ∧ (searchWithIntelligence ks store true q).2 = true
    ∧ (searchWithIntelligence ks store true q).1
        = fallbackQueryRows (fallbackKeyword ks q) store
    ∧ (searchWithIntelligence ks store true q).1.length ≤ 5 := by
  refine ⟨rfl, rfl, rfl, ?_⟩
  simpa [searchWithIntelligence, fallbackQueryRows] using List.length_take_le 5 _

/-! ### C7 — the page loop is bounded -/

/-- The page loop makes at most `21 - currentPage` further requests. -/
theorem fetchPagesFrom_reqs_le (pages : PageOracle) :
    ∀ (k currentPage : Nat) (acc : List AteraArticle) (reqs : Nat),
      21 - currentPage ≤ k → currentPage ≤ 20 →
      (fetchPagesFrom pages currentPage acc reqs).2 ≤ reqs + (21 - currentPage) := by
  intro k
  induction k with
  | zero => intro cp acc n h1 h2; omega
  | succ k ih =>
    intro cp acc n h1 h2
    rw [fetchPagesFrom]
    cases hp : pages cp with
    | error e => simp only; omega
    | ok items =>
      simp only
      split
      · omega
      · split
        · omega
        · rename_i hcp
          have := ih (cp + 1) (acc ++ parseAteraResponse items) (n + 1)
            (by omega) (by omega)
          omega

/-- C7: for every behaviour of the upstream API — errors, empty pages, or
an endless stream of non-empty pages — `fetchAllAteraArticles` makes at
most 20 page requests (and, being a total function into
`List AteraArticle × Nat`, returns the accumulated articles rather than
raising). -/
theorem c7_fetch_bounded_pages (pages : PageOracle) :
    (fetchAllAteraArticles pages).2 ≤ 20 := by
  have := fetchPagesFrom_reqs_le pages 20 1 [] 0 (by omega) (by omega)
  simpa [fetchAllAteraArticles] using this

/-! ### C2 — first-page failure empties the Store -/

/-- C2: when the very first upstream page request fails,
`fetchAllAteraArticles` swallows the error and returns no articles, and
`performDailySync` still runs to completion: its cleanup step
hard-deletes every article currently in the Store, and the returned
stats report `totalArticles = 0` with no error recorded. -/
theorem c2_first_page_failure_empties_store (pages : PageOracle)
    (genKw : String → String → List String) (store : List StoredArticle)
    (h : pages 1 = .error ()) :
    (fetchAllAteraArticles pages).1 = []
    ∧ (performDailySync genKw (fetchAllAteraArticles pages).1 store).1 = []
    ∧ (performDailySync genKw (fetchAllAteraArticles pages).1 store).2.totalArticles = 0
    ∧ (performDailySync genKw (fetchAllAteraArticles pages).1 store).2.errors = [] := by
  have hf : (fetchAllAteraArticles pages).1 = [] := by
    simp [fetchAllAteraArticles, fetchPagesFrom, h]
  rw [hf]
  refine ⟨rfl, ?_, ?_, rfl⟩
  · simp [performDailySync, filterQualityArticles, processArticles,
      cleanupRemovedArticles]
  · simp [performDailySync, filterQualityArticles, processArticles,
      cleanupRemovedArticles]

/-- C2 witness: the theorem at a concrete failing oracle and a concrete
non-empty store. -/
theorem c2_witness :
    (fetchAllAteraArticles (fun _ => .error ())).1 = []
    ∧ (performDailySync (fun _ _ => []) (fetchAllAteraArticles (fun _ => .error ())).1
        [{ articleId := "1", title := "T", content := "c", url := "u", tags := [],
           lastUpdated := none, searchKeywords := ["kw"], isActive := true,
           kbIsPrivate := false, kbStatus := 2 }]).1 = []
    ∧ (performDailySync (fun _ _ => []) (fetchAllAteraArticles (fun _ => .error ())).1
        [{ articleId := "1", title := "T", content := "c", url := "u", tags := [],
           lastUpdated := none, searchKeywords := ["kw"], isActive := true,
           kbIsPrivate := false, kbStatus := 2 }]).2.totalArticles = 0
    ∧ (performDailySync (fun _ _ => []) (fetchAllAteraArticles (fun _ => .error ())).1
        [{ articleId := "1", title := "T", content := "c", url := "u", tags := [],
           lastUpdated := none, searchKeywords := ["kw"], isActive := true,
           kbIsPrivate := false, kbStatus := 2 }]).2.errors = [] :=
  c2_first_page_failure_empties_store (fun _ => .error ()) (fun _ _ => []) _ rfl

/-! ### C3 — the quality filter -/

/-- C3: the quality filter keeps exactly the upstream records that are
public, published (status 2) and have non-empty trimmed content; and
after a sync run every Store row's id comes from the quality-filtered
upstream set, so a record rejected by the filter is never inserted or
retained under its id. -/
theorem c3_quality_filter_exact (articles fetched : List AteraArticle)
    (genKw : String → String → List String) (store : List StoredArticle) :
    (∀ a, a ∈ filterQualityArticles articles ↔
      a ∈ articles ∧
        ((!a.kbIsPrivate) && (a.kbStatus == 2)
          && (a.content ≠ "" && (jsTrim a.content).length > 0)) = true)
    ∧ ∀ s ∈ (performDailySync genKw fetched store).1,
        s.articleId ∈ (filterQualityArticles fetched).map (fun a => a.id) := by
  constructor
  · intro a
    simp [filterQualityArticles, List.mem_filter]
  · intro s hs
    have := (List.mem_filter.1 hs).2
    simpa [List.contains, List.elem_iff] using this

/-- C3 witness: a private record is rejected, a quality record kept. -/
theorem c3_witness :
    ({ id := "2", title := "B", content := "body", category := "", tags := [],
       lastUpdated := none, kbproduct := "B", kbIsPrivate := true, kbStatus := 2,
       url := "u" } : AteraArticle)
      ∉ filterQualityArticles
        [{ id := "1", title := "A", content := "body", category := "", tags := [],
           lastUpdated := none, kbproduct := "A", kbIsPrivate := false, kbStatus := 2,
           url := "u" },
         { id := "2", title := "B", content := "body", category := "", tags := [],
           lastUpdated := none, kbproduct := "B", kbIsPrivate := true, kbStatus := 2,
           url := "u" }] := by
  intro hmem
  have h := ((c3_quality_filter_exact
      [{ id := "1", title := "A", content := "body", category := "", tags := [],
         lastUpdated := none, kbproduct := "A", kbIsPrivate := false, kbStatus := 2,
         url := "u" },
       { id := "2", title := "B", content := "body", category := "", tags := [],
         lastUpdated := none, kbproduct := "B", kbIsPrivate := true, kbStatus := 2,
         url := "u" }] [] (fun _ _ => []) []).1 _).1 hmem
  exact absurd h.2 (by decide)

/-! ### C4 — sync-driven updates never touch `searchKeywords` -/

/-- A sync-driven update leaves the `searchKeywords` column of every row
untouched. -/
theorem updateExistingArticle_keywords (store : List StoredArticle) (a : AteraArticle) :
    ((updateExistingArticle store a).1).map (fun s => s.searchKeywords)
      = store.map (fun s => s.searchKeywords) := by
  unfold updateExistingArticle
  split
  · rfl
  · split
    · simp only [List.map_map]
      refine List.map_congr_left (fun s _ => ?_)
      simp only [Function.comp_apply]
      split <;> rfl
    · rfl

/-- C4: the add/update loop of a sync run only appends rows whose keyword
list starts empty and never rewrites the `searchKeywords` of the rows
already in the Store — in particular an update triggered by a
title/content/tags diff preserves the article's keyword list, and only
the keyword-backfill step (`generateMissingKeywords`) ever writes that
column. -/
theorem c4_sync_update_preserves_keywords (store : List StoredArticle)
    (a : AteraArticle) (ids : List String) (arts : List AteraArticle) :
    ((updateExistingArticle store a).1).map (fun s => s.searchKeywords)
      = store.map (fun s => s.searchKeywords)
    ∧ ∃ ext, ((processArticles ids store arts).1).map (fun s => s.searchKeywords)
        = store.map (fun s => s.searchKeywords) ++ ext ∧ ∀ l ∈ ext, l = [] := by
  refine ⟨updateExistingArticle_keywords store a, ?_⟩
  induction arts generalizing store with
  | nil => exact ⟨[], by simp [processArticles]⟩
  | cons b rest ih =>
    simp only [processArticles]
    split
    · obtain ⟨ext, hext, hnil⟩ := ih ((updateExistingArticle store b).1)
      exact ⟨ext, by rw [hext, updateExistingArticle_keywords store b], hnil⟩
    · obtain ⟨ext, hext, hnil⟩ := ih (addNewArticle store b)
      refine ⟨[] :: ext, ?_, ?_⟩
      · rw [hext]
        simp [addNewArticle, newStoredArticle]
      · intro l hl
        rcases List.mem_cons.1 hl with rfl | hl
        · rfl
        · exact hnil l hl

/-- C4 witness: a diff-triggered update of a concrete stored article
keeps its keyword list. -/
theorem c4_witness :
    ((updateExistingArticle
        [{ articleId := "1", title := "Old title", content := "old", url := "u",
           tags := [], lastUpdated := none, searchKeywords := ["vpn", "remote"],
           isActive := true, kbIsPrivate := false, kbStatus := 2 }]
        { id := "1", title := "New title", content := "new", category := "",
          tags := [], lastUpdated := none, kbproduct := "New title",
          kbIsPrivate := false, kbStatus := 2, url := "u" }).1).map
      (fun s => s.searchKeywords) = [["vpn", "remote"]] :=
  (c4_sync_update_preserves_keywords _ _ [] []).1

/-! ### C8 — bounded, score-sorted results on both search paths -/

theorem luGe_total (a b : Option Int) : (luGe a b || luGe b a) = true := by
  cases a <;> cases b <;> simp [luGe] <;> omega

theorem luGe_trans (a b c : Option Int) :
    luGe a b = true → luGe b c = true → luGe a c = true := by
  cases a <;> cases b <;> cases c <;> simp [luGe] <;> omega

theorem intelOrder_total (ks : SearchKeywords) (x y : SearchRow) :
    (intelOrder ks x y || intelOrder ks y x) = true := by
  simp only [intelOrder, Bool.or_eq_true, decide_eq_true_eq, Bool.and_eq_true, beq_iff_eq]
  rcases lt_trichotomy (relevanceScore ks x) (relevanceScore ks y) with h | h | h
  · tauto
  · have := luGe_total x.lastUpdated y.lastUpdated
    rw [Bool.or_eq_true] at this
    rcases this with h' | h'
    · exact Or.inl (Or.inr ⟨h, h'⟩)
    · exact Or.inr (Or.inr ⟨h.symm, h'⟩)
  · tauto

theorem intelOrder_trans (ks : SearchKeywords) (x y z : SearchRow) :
    intelOrder ks x y = true → intelOrder ks y z = true → intelOrder ks x z = true := by
  simp only [intelOrder, Bool.or_eq_true, decide_eq_true_eq, Bool.and_eq_true, beq_iff_eq]
  rintro (h1 | ⟨h1, h1'⟩) (h2 | ⟨h2, h2'⟩)
  · exact Or.inl (by omega)
  · exact Or.inl (by omega)
  · exact Or.inl (by omega)
  · exact Or.inr ⟨by omega, luGe_trans _ _ _ h1' h2'⟩

/-- The score is non-increasing along the main query's order. -/
theorem intelOrder_score_le (ks : SearchKeywords) (x y : SearchRow) :
    intelOrder ks x y = true → relevanceScore ks y ≤ relevanceScore ks x := by
  simp only [intelOrder, Bool.or_eq_true, decide_eq_true_eq, Bool.and_eq_true, beq_iff_eq]
  rintro (h | ⟨h, _⟩) <;> omega

theorem chatOrder_total (terms : List String) (a b : StoredArticle) :
    (chatOrder terms a b || chatOrder terms b a) = true := by
  simp only [chatOrder, Bool.or_eq_true, decide_eq_true_eq]
  omega

theorem chatOrder_trans (terms : List String) (a b c : StoredArticle) :
    chatOrder terms a b = true → chatOrder terms b c = true → chatOrder terms a c = true := by
  simp only [chatOrder, decide_eq_true_eq]
  omega

theorem chatRescore_length_le (terms : List String) (rows : List StoredArticle) :
    (chatRescore terms rows).length ≤ 3 := by
  unfold chatRescore
  split
  · rename_i hr
    simp [List.isEmpty_iff.1 hr]
  · exact List.length_take_le 3 _

theorem chatRescore_pairwise (terms : List String) (rows : List StoredArticle) :
    (chatRescore terms rows).Pairwise
      (fun x y => chatScore terms y ≤ chatScore terms x) := by
  unfold chatRescore
  split
  · rename_i hr
    simp [List.isEmpty_iff.1 hr]
  · have hsorted := pairwise_stableSortBy (chatOrder_total terms) (chatOrder_trans terms) rows
    have hfilter := List.Pairwise.sublist
      (List.filter_sublist (p := fun r => (10 : Int) ≤ chatScore terms r)
        (stableSortBy (chatOrder terms) rows)) hsorted
    have htake := List.Pairwise.sublist (List.take_sublist 3 _) hfilter
    exact htake.imp (fun h => by simpa [chatOrder] using h)

/-- C8: the keyword-based path returns at most 5 articles sorted by
non-increasing relevance score (on both its main and its degraded
query), the chat-turn path returns at most 3 articles sorted by
non-increasing chat score, and on either path a query matching no
stored article returns the empty list (no exception is modelled: both
paths are total functions). -/
theorem c8_search_bounded_sorted (ks : SearchKeywords) (store : List SearchRow)
    (q : String) (terms : List String) (cstore : List StoredArticle) :
    (searchWithIntelligence ks store false q).1.length ≤ 5
    ∧ (searchWithIntelligence ks store true q).1.length ≤ 5
    ∧ (searchWithIntelligence ks store false q).1.Pairwise
        (fun x y => relevanceScore ks y ≤ relevanceScore ks x)
    ∧ ((∀ r ∈ store, ¬ (rowMatchesKeywords ks r && r.isActive) = true) →
        (searchWithIntelligence ks store false q).1 = [])
    ∧ (chatSearchWithTerms terms cstore).length ≤ 3
    ∧ (chatSearchWithTerms terms cstore).Pairwise
        (fun x y => chatScore terms y ≤ chatScore terms x)
    ∧ ((∀ r ∈ cstore, ¬ (chatRowMatches terms r && r.isActive) = true) →
        chatSearchWithTerms terms cstore = []) := by
  refine ⟨?_, ?_, ?_, ?_, ?_, ?_, ?_⟩
  · simpa [searchWithIntelligence, intelligentQueryRows] using List.length_take_le 5 _
  · simpa [searchWithIntelligence, fallbackQueryRows] using List.length_take_le 5 _
  · show (intelligentQueryRows ks store).Pairwise _
    have hsorted := pairwise_stableSortBy (intelOrder_total ks) (intelOrder_trans ks)
      (store.filter (fun r => rowMatchesKeywords ks r && r.isActive))
    exact (List.Pairwise.sublist (List.take_sublist 5 _) hsorted).imp
      (fun h => intelOrder_score_le ks _ _ h)
  · intro hnone
    show intelligentQueryRows ks store = []
    unfold intelligentQueryRows
    rw [List.filter_eq_nil_iff.2 hnone]
    rfl
  · unfold chatSearchWithTerms
    split
    · simp
    · exact chatRescore_length_le terms _
  · unfold chatSearchWithTerms
    split
    · simp
    · exact chatRescore_pairwise terms _
  · intro hnone
    unfold chatSearchWithTerms
    split
    · rfl
    · rw [List.filter_eq_nil_iff.2 hnone]
      simp [stableSortBy, chatRescore]

/-- C8 witness: both paths applied at concrete stores, discharging the
no-match hypotheses. -/
theorem c8_witness :
    (searchWithIntelligence ⟨["vpn"], [], "c"⟩
        [{ articleId := "9", title := "Printer offline", url := "u",
           kbproduct := "Printer offline", content := "paper jam",
           lastUpdated := none, isActive := true }] false "q").1 = []
    ∧ chatSearchWithTerms ["vpn"]
        [{ articleId := "9", title := "Printer offline", content := "paper jam",
           url := "u", tags := [], lastUpdated := none, searchKeywords := [],
           isActive := true, kbIsPrivate := false, kbStatus := 2 }] = [] :=
  ⟨(c8_search_bounded_sorted ⟨["vpn"], [], "c"⟩
      [{ articleId := "9", title := "Printer offline", url := "u",
         kbproduct := "Printer offline", content := "paper jam",
         lastUpdated := none, isActive := true }] "q" ["vpn"] []).2.2.2.1 (by decide),
    (c8_search_bounded_sorted ⟨["vpn"], [], "c"⟩ [] "q" ["vpn"]
      [{ articleId := "9", title := "Printer offline", content := "paper jam",
         url := "u", tags := [], lastUpdated := none, searchKeywords := [],
         isActive := true, kbIsPrivate := false, kbStatus := 2 }]).2.2.2.2.2.2 (by decide)⟩

/-! ### C9 — content-only matches stay below the relevance floor -/

/-- C9: in the strict chat-turn path, an article none of whose extracted
search terms occurs in its (lower-cased) title or joined precomputed
keyword list scores 0 — below the relevance floor of 10 — and is
therefore never part of the returned results, even when its content
matches every term (content matches only let it enter the candidate
set). -/
theorem c9_content_only_below_floor (terms : List String)
    (store : List StoredArticle) (r : StoredArticle)
    (hne : terms ≠ [])
    (htitle : ∀ t ∈ terms, jsIncludes (jsToLowerCase r.title) t = false)
    (hkw : ∀ t ∈ terms, jsIncludes (jsToLowerCase (joinSpace r.searchKeywords)) t = false) :
    chatScore terms r = 0 ∧ r ∉ chatSearchWithTerms terms store := by
  obtain ⟨t0, ht0⟩ := List.exists_mem_of_ne_nil terms hne
  have hscore : chatScore terms r = 0 := by
    have h1 : (terms.all fun term => jsIncludes (jsToLowerCase r.title) term) = false := by
      rw [Bool.eq_false_iff]
      intro hall
      rw [List.all_eq_true] at hall
      exact absurd (hall t0 ht0) (by simp [htitle t0 ht0])
    have h2 : (terms.all fun term =>
        jsIncludes (jsToLowerCase (joinSpace r.searchKeywords)) term) = false := by
      rw [Bool.eq_false_iff]
      intro hall
      rw [List.all_eq_true] at hall
      exact absurd (hall t0 ht0) (by simp [hkw t0 ht0])
    have h3 : ∀ x ∈ terms.map (fun term =>
        (if jsIncludes (jsToLowerCase r.title) term then (10 : Int) else 0)
          + (if jsIncludes (jsToLowerCase (joinSpace r.searchKeywords)) term then (5 : Int) else 0)),
        x = 0 := by
      intro x hx
      obtain ⟨t, ht, rfl⟩ := List.mem_map.1 hx
      rw [htitle t ht, hkw t ht]
      simp
    simp [chatScore, h1, h2, List.sum_eq_zero h3]
  refine ⟨hscore, ?_⟩
  intro hmem
  unfold chatSearchWithTerms at hmem
  rw [if_neg (by simpa [List.isEmpty_iff] using hne)] at hmem
  unfold chatRescore at hmem
  split at hmem
  · rename_i hr
    rw [List.isEmpty_iff.1 hr] at hmem
    simp at hmem
  · have h10 := (List.mem_filter.1 (List.mem_of_mem_take hmem)).2
    rw [hscore] at h10
    simp at h10

/-- C9 witness: a concrete article whose only match is in its content is
excluded from the concrete chat-turn result. -/
theorem c9_witness :
    chatScore ["vpn"]
      { articleId := "9", title := "Printer offline", content := "uses the vpn",
        url := "u", tags := [], lastUpdated := none, searchKeywords := ["printer"],
        isActive := true, kbIsPrivate := false, kbStatus := 2 } = 0
    ∧ ({ articleId := "9", title := "Printer offline", content := "uses the vpn",
         url := "u", tags := [], lastUpdated := none, searchKeywords := ["printer"],
         isActive := true, kbIsPrivate := false, kbStatus := 2 } : StoredArticle)
        ∉ chatSearchWithTerms ["vpn"]
          [{ articleId := "9", title := "Printer offline", content := "uses the vpn",
             url := "u", tags := [], lastUpdated := none, searchKeywords := ["printer"],
             isActive := true, kbIsPrivate := false, kbStatus := 2 }] :=
  c9_content_only_below_floor ["vpn"] _ _ (by decide) (by decide) (by decide)

/-! ### C5 — a second sync over an unchanged upstream set is a no-op

The invariant carried through a run: for each quality article, the first
Store row bearing its id agrees with it on title, content and tags, so
the `needsUpdate` diff of a second run is empty everywhere. -/

def FirstMatch (store : List StoredArticle) (a : AteraArticle) : Prop :=
  ∃ s, store.find? (fun s => s.articleId == a.id) = some s
    ∧ s.title = a.title ∧ s.content = a.content ∧ s.tags = a.tags

theorem applyUpdate_articleId (a : AteraArticle) (s : StoredArticle) :
    (applyUpdate a s).articleId = s.articleId := rfl

/-- Looking up by id commutes with an id-preserving row transformation. -/
theorem find?_map_id_preserving (g : StoredArticle → StoredArticle)
    (hg : ∀ s, (g s).articleId = s.articleId) (store : List StoredArticle) (i : String) :
    (store.map g).find? (fun s => s.articleId == i)
      = (store.find? (fun s => s.articleId == i)).map g := by
  have hcomp : ((fun s => s.articleId == i) ∘ g) = (fun s : StoredArticle => s.articleId == i) := by
    funext s
    simp [Function.comp, hg]
  rw [List.find?_map, hcomp]

/-- An update rewrites rows in place: the id column is unchanged. -/
theorem updateExistingArticle_ids (store : List StoredArticle) (a : AteraArticle) :
    ((updateExistingArticle store a).1).map (fun s => s.articleId)
      = store.map (fun s => s.articleId) := by
  unfold updateExistingArticle
  split
  · rfl
  · split
    · simp only [List.map_map]
      refine List.map_congr_left (fun s _ => ?_)
      simp only [Function.comp_apply]
      split <;> rfl
    · rfl

theorem firstMatch_update_other {store : List StoredArticle} {b a : AteraArticle}
    (hba : b.id ≠ a.id) (h : FirstMatch store a) :
    FirstMatch ((updateExistingArticle store b).1) a := by
  obtain ⟨s, hf, h1, h2, h3⟩ := h
  have hsid := List.find?_some hf
  simp only [beq_iff_eq] at hsid
  unfold updateExistingArticle
  split
  · exact ⟨s, hf, h1, h2, h3⟩
  · split
    · refine ⟨s, ?_, h1, h2, h3⟩
      rw [find?_map_id_preserving _ (fun s => by split <;> rfl), hf]
      simp only [Option.map_some']
      congr 1
      rw [if_neg (by simp [hsid, hba.symm])]
    · exact ⟨s, hf, h1, h2, h3⟩

theorem firstMatch_append {store : List StoredArticle} {x : StoredArticle}
    {a : AteraArticle} (h : FirstMatch store a) : FirstMatch (store ++ [x]) a := by
  obtain ⟨s, hf, hs⟩ := h
  exact ⟨s, by rw [List.find?_append, hf]; rfl, hs⟩

theorem firstMatch_processArticles {ids : List String} {arts : List AteraArticle} :
    ∀ {store : List StoredArticle} {a : AteraArticle}, FirstMatch store a →
      (∀ b ∈ arts, b.id ≠ a.id) →
      FirstMatch (processArticles ids store arts).1 a := by
  induction arts with
  | nil => intro store a h _; exact h
  | cons b rest ih =>
    intro store a h hne
    simp only [processArticles]
    split
    · exact ih (firstMatch_update_other (hne b (List.mem_cons_self b rest)) h)
        (fun c hc => hne c (List.mem_cons_of_mem b hc))
    · exact ih (firstMatch_append h) (fun c hc => hne c (List.mem_cons_of_mem b hc))

theorem firstMatch_generateMissingKeywords (genKw : String → String → List String)
    {store : List StoredArticle} {a : AteraArticle} (h : FirstMatch store a) :
    FirstMatch (generateMissingKeywords genKw store).1 a := by
  obtain ⟨s, hf, h1, h2, h3⟩ := h
  unfold generateMissingKeywords
  refine ⟨if s.searchKeywords.isEmpty then { s with searchKeywords := genKw s.title s.content } else s,
    ?_, ?_, ?_, ?_⟩
  · rw [find?_map_id_preserving _ (fun s => by split <;> rfl), hf]
    rfl
  · split <;> simpa
  · split <;> simpa
  · split <;> simpa

/-- Lookup ignores a filter that keeps everything the lookup looks for. -/
theorem find?_filter_of_imp {p q : StoredArticle → Bool}
    (h : ∀ x, q x = true → p x = true) :
    ∀ (l : List StoredArticle), (l.filter p).find? q = l.find? q := by
  intro l
  induction l with
  | nil => rfl
  | cons x xs ih =>
    by_cases hq : q x = true
    · rw [List.filter_cons_of_pos (h x hq), List.find?_cons_of_pos _ hq,
        List.find?_cons_of_pos _ hq]
    · rw [List.find?_cons_of_neg _ (by simpa using hq), ← ih]
      by_cases hp : p x = true
      · rw [List.filter_cons_of_pos hp, List.find?_cons_of_neg _ (by simpa using hq)]
      · rw [List.filter_cons_of_neg (by simpa using hp)]

theorem firstMatch_cleanup {idsC : List String} {store : List StoredArticle}
    {a : AteraArticle} (hmem : a.id ∈ idsC) (h : FirstMatch store a) :
    FirstMatch (cleanupRemovedArticles idsC store) a := by
  obtain ⟨s, hf, hs⟩ := h
  refine ⟨s, ?_, hs⟩
  unfold cleanupRemovedArticles
  rw [find?_filter_of_imp (fun x hx => ?_), hf]
  rw [beq_iff_eq] at hx
  rw [hx]
  exact List.elem_eq_true_of_mem hmem

theorem string_contains_iff (l : List String) (x : String) :
    l.contains x = true ↔ x ∈ l := by
  simp [List.contains, List.elem_iff]

theorem updateExistingArticle_eq_of_find? {store : List StoredArticle}
    {b : AteraArticle} {e : StoredArticle}
    (he : store.find? (fun s => s.articleId == b.id) = some e) :
    updateExistingArticle store b =
      if needsUpdate e b then
        (store.map (fun s => if s.articleId == b.id then applyUpdate b s else s), true)
      else (store, false) := by
  unfold updateExistingArticle
  rw [he]

/-- After the add/update loop of a run over quality articles with
pairwise-distinct ids, the first Store row bearing each article's id
agrees with it on every diffed field. -/
theorem processArticles_establishes :
    ∀ (arts : List AteraArticle) (ids : List String) (store : List StoredArticle),
      (arts.map (fun a => a.id)).Nodup →
      (∀ b ∈ arts, ids.contains b.id = true → b.id ∈ store.map (fun s => s.articleId)) →
      (∀ b ∈ arts, ids.contains b.id = false → b.id ∉ store.map (fun s => s.articleId)) →
      ∀ a ∈ arts, FirstMatch (processArticles ids store arts).1 a := by
  intro arts
  induction arts with
  | nil => intro ids store _ _ _ a ha; simp at ha
  | cons b rest ih =>
    intro ids store hnodup hin hout a ha
    rw [List.map_cons, List.nodup_cons] at hnodup
    obtain ⟨hbid_rest, hnodup'⟩ := hnodup
    simp only [processArticles]
    by_cases hc : ids.contains b.id = true
    · rw [if_pos hc]
      have hbid : b.id ∈ store.map (fun s => s.articleId) :=
        hin b (List.mem_cons_self b rest) hc
      obtain ⟨s0, hs0mem, hs0id⟩ := List.mem_map.1 hbid
      have hfind : (store.find? (fun s => s.articleId == b.id)).isSome := by
        rw [List.find?_isSome]
        exact ⟨s0, hs0mem, by simp [hs0id]⟩
      obtain ⟨e, he⟩ := Option.isSome_iff_exists.1 hfind
      have heid := List.find?_some he
      simp only [beq_iff_eq] at heid
      have hfmb : FirstMatch (updateExistingArticle store b).1 b := by
        rw [updateExistingArticle_eq_of_find? he]
        split
        · refine ⟨applyUpdate b e, ?_, rfl, rfl, rfl⟩
          rw [find?_map_id_preserving _ (fun s => by split <;> rfl), he]
          simp only [Option.map_some']
          rw [if_pos (by simp [heid])]
        · rename_i hnu
          simp only [needsUpdate, Bool.or_eq_true, decide_eq_true_eq, Bool.not_eq_true] at hnu
          push_neg at hnu
          obtain ⟨⟨hA, hB⟩, hC⟩ := hnu
          exact ⟨e, he, hA, hB, hC⟩
      have hids_pres : ((updateExistingArticle store b).1).map (fun s => s.articleId)
          = store.map (fun s => s.articleId) := updateExistingArticle_ids store b
      rcases List.mem_cons.1 ha with rfl | ha'
      · exact firstMatch_processArticles hfmb
          (fun c hcmem => fun hceq => hbid_rest (hceq ▸ List.mem_map_of_mem _ hcmem))
      · exact ih ids _ hnodup'
          (fun c hcmem hcc => hids_pres ▸ hin c (List.mem_cons_of_mem b hcmem) hcc)
          (fun c hcmem hcc => hids_pres ▸ hout c (List.mem_cons_of_mem b hcmem) hcc)
          a ha'
    · rw [if_neg hc]
      have hnotin : b.id ∉ store.map (fun s => s.articleId) :=
        hout b (List.mem_cons_self b rest) (by simpa using hc)
      have hfmb : FirstMatch (addNewArticle store b) b := by
        refine ⟨newStoredArticle b, ?_, rfl, rfl, rfl⟩
        unfold addNewArticle
        rw [List.find?_append]
        have hnone : store.find? (fun s => s.articleId == b.id) = none := by
          rw [List.find?_eq_none]
          intro x hx
          simp only [beq_iff_eq]
          intro hxe
          exact hnotin (List.mem_map.2 ⟨x, hx, hxe⟩)
        rw [hnone]
        simp [List.find?, newStoredArticle]
      have hids_app : (addNewArticle store b).map (fun s => s.articleId)
          = store.map (fun s => s.articleId) ++ [b.id] := by
        simp [addNewArticle, newStoredArticle]
      rcases List.mem_cons.1 ha with rfl | ha'
      · exact firstMatch_processArticles hfmb
          (fun c hcmem => fun hceq => hbid_rest (hceq ▸ List.mem_map_of_mem _ hcmem))
      · refine ih ids _ hnodup' ?_ ?_ a ha'
        · intro c hcmem hcc
          rw [hids_app]
          exact List.mem_append_left _ (hin c (List.mem_cons_of_mem b hcmem) hcc)
        · intro c hcmem hcc
          rw [hids_app]
          intro hmem
          rcases List.mem_append.1 hmem with hmem | hmem
          · exact hout c (List.mem_cons_of_mem b hcmem) hcc hmem
          · rw [List.mem_singleton] at hmem
            exact hbid_rest (hmem ▸ List.mem_map_of_mem _ hcmem)

/-- When every quality article already agrees with the first Store row
bearing its id, and its id is in the snapshot, the add/update loop
changes nothing and counts nothing. -/
theorem processArticles_noop :
    ∀ (arts : List AteraArticle) (ids : List String) (store : List StoredArticle),
      (∀ a ∈ arts, FirstMatch store a ∧ ids.contains a.id = true) →
      processArticles ids store arts = (store, 0, 0) := by
  intro arts
  induction arts with
  | nil => intro ids store _; rfl
  | cons b rest ih =>
    intro ids store h
    obtain ⟨⟨s, hf, h1, h2, h3⟩, hc⟩ := h b (List.mem_cons_self b rest)
    simp only [processArticles]
    rw [if_pos hc]
    have hupd : updateExistingArticle store b = (store, false) := by
      rw [updateExistingArticle_eq_of_find? hf,
        if_neg (by simp [needsUpdate, h1, h2, h3])]
    rw [hupd]
    have hrest := ih ids store (fun a ha => h a (List.mem_cons_of_mem b ha))
    simp [hrest]

/-- Unfolding of `performDailySync`, with the run's lets spelled out. -/
theorem performDailySync_eq (genKw : String → String → List String)
    (fetched : List AteraArticle) (store : List StoredArticle) :
    performDailySync genKw fetched store =
      (cleanupRemovedArticles ((filterQualityArticles fetched).map (fun a => a.id))
          (generateMissingKeywords genKw
            (processArticles (store.map (fun s => s.articleId)) store
              (filterQualityArticles fetched)).1).1,
        { articlesChecked := (filterQualityArticles fetched).length
          articlesUpdated := (processArticles (store.map (fun s => s.articleId)) store
            (filterQualityArticles fetched)).2.1
          articlesAdded := (processArticles (store.map (fun s => s.articleId)) store
            (filterQualityArticles fetched)).2.2
          keywordsGenerated := (generateMissingKeywords genKw
            (processArticles (store.map (fun s => s.articleId)) store
              (filterQualityArticles fetched)).1).2
          totalArticles := (cleanupRemovedArticles
            ((filterQualityArticles fetched).map (fun a => a.id))
            (generateMissingKeywords genKw
              (processArticles (store.map (fun s => s.articleId)) store
                (filterQualityArticles fetched)).1).1).length
          errors := [] }) := rfl

/-- C5: running the sync twice against the same upstream article set
(with pairwise-distinct quality-article ids, as the Store's unique-id
constraint and the upstream contract guarantee, and no per-article
errors, as the pure model has none) adds and updates nothing on the
second run. -/
theorem c5_second_sync_idempotent (genKw : String → String → List String)
    (fetched : List AteraArticle) (store : List StoredArticle)
    (hnodup : ((filterQualityArticles fetched).map (fun a => a.id)).Nodup) :
    (performDailySync genKw fetched (performDailySync genKw fetched store).1).2.articlesAdded = 0
    ∧ (performDailySync genKw fetched
        (performDailySync genKw fetched store).1).2.articlesUpdated = 0 := by
  have hFM : ∀ a ∈ filterQualityArticles fetched,
      FirstMatch (performDailySync genKw fetched store).1 a := by
    intro a ha
    rw [performDailySync_eq]
    exact firstMatch_cleanup (List.mem_map_of_mem _ ha)
      (firstMatch_generateMissingKeywords genKw
        (processArticles_establishes (filterQualityArticles fetched)
          (store.map (fun s => s.articleId)) store hnodup
          (fun b _ hcb => (string_contains_iff _ _).1 hcb)
          (fun b _ hcb hmem => by
            rw [← string_contains_iff _ b.id] at hmem
            rw [hcb] at hmem
            exact Bool.false_ne_true hmem)
          a ha))
  have hIds2 : ∀ a ∈ filterQualityArticles fetched,
      (((performDailySync genKw fetched store).1).map
        (fun s => s.articleId)).contains a.id = true := by
    intro a ha
    obtain ⟨s, hf, _⟩ := hFM a ha
    have hsmem := List.mem_of_find?_eq_some hf
    have hsid := List.find?_some hf
    simp only [beq_iff_eq] at hsid
    rw [string_contains_iff]
    exact List.mem_map.2 ⟨s, hsmem, hsid⟩
  have hnoop := processArticles_noop (filterQualityArticles fetched)
    (((performDailySync genKw fetched store).1).map (fun s => s.articleId))
    (performDailySync genKw fetched store).1
    (fun a ha => ⟨hFM a ha, hIds2 a ha⟩)
  constructor
  · rw [performDailySync_eq genKw fetched (performDailySync genKw fetched store).1]
    simp [hnoop]
  · rw [performDailySync_eq genKw fetched (performDailySync genKw fetched store).1]
    simp [hnoop]

/-- C5 witness: a concrete double sync from an empty Store. -/
theorem c5_witness :
    (performDailySync (fun _ _ => ["kw"])
      [{ id := "1", title := "A", content := "body", category := "", tags := [],
         lastUpdated := none, kbproduct := "A", kbIsPrivate := false, kbStatus := 2,
         url := "u" }]
      (performDailySync (fun _ _ => ["kw"])
        [{ id := "1", title := "A", content := "body", category := "", tags := [],
           lastUpdated := none, kbproduct := "A", kbIsPrivate := false, kbStatus := 2,
           url := "u" }] []).1).2.articlesAdded = 0
    ∧ (performDailySync (fun _ _ => ["kw"])
      [{ id := "1", title := "A", content := "body", category := "", tags := [],
         lastUpdated := none, kbproduct := "A", kbIsPrivate := false, kbStatus := 2,
         url := "u" }]
      (performDailySync (fun _ _ => ["kw"])
        [{ id := "1", title := "A", content := "body", category := "", tags := [],
           lastUpdated := none, kbproduct := "A", kbIsPrivate := false, kbStatus := 2,
           url := "u" }] []).1).2.articlesUpdated = 0 :=
  c5_second_sync_idempotent (fun _ _ => ["kw"]) _ [] (by decide)
